import Mathlib

/-!
Verification development for the `encrypted-message` Rust crate.

The crate stores serializable values as authenticated-encrypted envelopes
(base64 ciphertext + nonce + tag), supporting deterministic and randomized
nonce strategies and ordered key rotation.  This file gives a shallow
embedding of the crate's core pipeline and proves or refutes the frozen
specification claims.

Byte strings are modelled as `List Nat` whose members are `< 256` where that
matters.  Fallible Rust code returns an explicit result type; Rust panics are
modelled by a dedicated `panic` constructor.  External collaborator crates
(sha2, hmac, pbkdf2, aes-gcm, base64, serde_json) are modelled at their
documented boundaries: SHA-256 and base64 are implemented in full; the
AES-256-GCM cipher is modelled as a length-preserving keystream XOR with a
deterministic 16-byte detached tag; serde_json is a parameter (a pair of
serialize/deserialize functions).
-/

set_option maxHeartbeats 1000000

/-- Big-endian 4-byte encoding of a natural number (low 32 bits). -/
def be32 (n : Nat) : List Nat :=
  [n / 2 ^ 24 % 256, n / 2 ^ 16 % 256, n / 2 ^ 8 % 256, n % 256]

/-- Big-endian 8-byte encoding of a natural number (low 64 bits). -/
def be64 (n : Nat) : List Nat :=
  [n / 2 ^ 56 % 256, n / 2 ^ 48 % 256, n / 2 ^ 40 % 256, n / 2 ^ 32 % 256,
   n / 2 ^ 24 % 256, n / 2 ^ 16 % 256, n / 2 ^ 8 % 256, n % 256]

/-- Pointwise XOR of two byte strings, truncated to the shorter one
(mirrors an XOR keystream application over a buffer). -/
def xorBytes (a b : List Nat) : List Nat :=
  List.zipWith (fun x y => x ^^^ y) a b

theorem xorBytes_length (a b : List Nat) :
    (xorBytes a b).length = min a.length b.length := by
  simp [xorBytes]

theorem xorBytes_xorBytes (a b : List Nat) :
    xorBytes (xorBytes a b) b = a.take b.length := by
  induction a generalizing b with
  | nil => simp [xorBytes]
  | cons x xs ih =>
    cases b with
    | nil => simp [xorBytes]
    | cons y ys =>
      simp only [xorBytes, List.zipWith_cons_cons, List.take_succ_cons] at *
      refine congrArg₂ List.cons ?_ (ih ys)
      rw [Nat.xor_assoc, Nat.xor_self, Nat.xor_zero]

theorem xorBytes_cancel (a b : List Nat) (h : a.length ≤ b.length) :
    xorBytes (xorBytes a b) b = a := by
  rw [xorBytes_xorBytes, List.take_of_length_le h]

theorem xorBytes_lt (a b : List Nat) (ha : ∀ x ∈ a, x < 256) (hb : ∀ x ∈ b, x < 256) :
    ∀ x ∈ xorBytes a b, x < 256 := by
  induction a generalizing b with
  | nil => simp [xorBytes]
  | cons x xs ih =>
    cases b with
    | nil => simp [xorBytes]
    | cons y ys =>
      intro z hz
      simp only [xorBytes, List.zipWith_cons_cons, List.mem_cons] at hz
      rcases hz with hz | hz
      · subst hz
        have hx : x < 2 ^ 8 := ha x (by simp)
        have hy : y < 2 ^ 8 := hb y (by simp)
        exact Nat.xor_lt_two_pow hx hy
      · exact ih ys (fun u hu => ha u (by simp [hu])) (fun u hu => hb u (by simp [hu])) z hz

/-- Splits a byte string into 64-byte blocks, with a structural fuel
argument bounding the number of blocks. -/
def chunksAux : Nat → List Nat → List (List Nat)
  | 0, _ => []
  | _, [] => []
  | fuel + 1, x :: xs => ((x :: xs).take 64) :: chunksAux fuel ((x :: xs).drop 64)

/-- Splits a byte string into 64-byte blocks. -/
def chunks64 (l : List Nat) : List (List Nat) :=
  chunksAux l.length l

/-- SHA-256 round constants (the external `sha2` crate's compression schedule). -/
def sha256K : List Nat :=
  [1116352408, 1899447441, 3049323471, 3921009573, 961987163,
   1508970993, 2453635748, 2870763221, 3624381080, 310598401,
   607225278, 1426881987, 1925078388, 2162078206, 2614888103,
   3248222580, 3835390401, 4022224774, 264347078, 604807628,
   770255983, 1249150122, 1555081692, 1996064986, 2554220882,
   2821834349, 2952996808, 3210313671, 3336571891, 3584528711,
   113926993, 338241895, 666307205, 773529912, 1294757372,
   1396182291, 1695183700, 1986661051, 2177026350, 2456956037,
   2730485921, 2820302411, 3259730800, 3345764771, 3516065817,
   3600352804, 4094571909, 275423344, 430227734, 506948616,
   659060556, 883997877, 958139571, 1322822218, 1537002063,
   1747873779, 1955562222, 2024104815, 2227730452, 2361852424,
   2428436474, 2756734187, 3204031479, 3329325298]

/-- 32-bit right rotation. -/
def rotr32 (n x : Nat) : Nat :=
  ((x >>> n) ||| (x <<< (32 - n))) % 2 ^ 32

def bigSigma0 (x : Nat) : Nat := rotr32 2 x ^^^ rotr32 13 x ^^^ rotr32 22 x

def bigSigma1 (x : Nat) : Nat := rotr32 6 x ^^^ rotr32 11 x ^^^ rotr32 25 x

def smallSigma0 (x : Nat) : Nat := rotr32 7 x ^^^ rotr32 18 x ^^^ (x >>> 3)

def smallSigma1 (x : Nat) : Nat := rotr32 17 x ^^^ rotr32 19 x ^^^ (x >>> 10)

def chWord (e f g : Nat) : Nat := (e &&& f) ^^^ ((e ^^^ 0xffffffff) &&& g)

def majWord (a b c : Nat) : Nat := (a &&& b) ^^^ (a &&& c) ^^^ (b &&& c)

/-- Packs bytes into big-endian 32-bit words (4 bytes per word). -/
def bytesToWords : List Nat → List Nat
  | b0 :: b1 :: b2 :: b3 :: rest =>
    (((b0 * 256 + b1) * 256 + b2) * 256 + b3) :: bytesToWords rest
  | _ => []

/-- Unpacks big-endian 32-bit words into bytes. -/
def wordsToBytes (ws : List Nat) : List Nat :=
  ws.foldr (fun w acc =>
    w / 2 ^ 24 % 256 :: w / 2 ^ 16 % 256 :: w / 2 ^ 8 % 256 :: w % 256 :: acc) []

theorem wordsToBytes_length (ws : List Nat) : (wordsToBytes ws).length = 4 * ws.length := by
  induction ws with
  | nil => rfl
  | cons w ws ih =>
    simp only [wordsToBytes, List.foldr_cons, List.length_cons] at *
    omega

theorem wordsToBytes_lt (ws : List Nat) : ∀ b ∈ wordsToBytes ws, b < 256 := by
  induction ws with
  | nil => simp [wordsToBytes]
  | cons w ws ih =>
    intro b hb
    simp only [wordsToBytes, List.foldr_cons, List.mem_cons] at hb
    rcases hb with h | h | h | h | h
    · omega
    · omega
    · omega
    · omega
    · exact ih b h

/-- Extends the 16-word message schedule to 64 words; the accumulator holds
the schedule so far, most recent word first. -/
def shaExtendLoop : Nat → List Nat → List Nat
  | 0, acc => acc
  | n + 1, acc =>
    let w := (smallSigma1 (acc.getD 1 0) + acc.getD 6 0 +
              smallSigma0 (acc.getD 14 0) + acc.getD 15 0) % 2 ^ 32
    shaExtendLoop n (w :: acc)

def shaSchedule (ws16 : List Nat) : List Nat :=
  (shaExtendLoop 48 ws16.reverse).reverse

/-- The eight 32-bit working variables of the SHA-256 compression function. -/
structure ShaState where
  a : Nat
  b : Nat
  c : Nat
  d : Nat
  e : Nat
  f : Nat
  g : Nat
  h : Nat

def shaRound (st : ShaState) (kw : Nat × Nat) : ShaState :=
  let t1 := (st.h + bigSigma1 st.e + chWord st.e st.f st.g + kw.1 + kw.2) % 2 ^ 32
  let t2 := (bigSigma0 st.a + majWord st.a st.b st.c) % 2 ^ 32
  ⟨(t1 + t2) % 2 ^ 32, st.a, st.b, st.c, (st.d + t1) % 2 ^ 32, st.e, st.f, st.g⟩

def shaCompress (st : ShaState) (block : List Nat) : ShaState :=
  let ws := shaSchedule (bytesToWords block)
  let t := (List.zip sha256K ws).foldl shaRound st
  ⟨(st.a + t.a) % 2 ^ 32, (st.b + t.b) % 2 ^ 32, (st.c + t.c) % 2 ^ 32,
   (st.d + t.d) % 2 ^ 32, (st.e + t.e) % 2 ^ 32, (st.f + t.f) % 2 ^ 32,
   (st.g + t.g) % 2 ^ 32, (st.h + t.h) % 2 ^ 32⟩

def sha256init : ShaState :=
  ⟨1779033703,
   3144134277,
   1013904242,
   2773480762,
   1359893119,
   2600822924,
   528734635,
   1541459225⟩

/-- SHA-256 digest of a byte string (model of the external `sha2` crate):
pad to a 64-byte multiple with 0x80, zeros and the 64-bit bit length, then
iterate the compression function; the digest is the final state's 32 bytes. -/
def sha256 (msg : List Nat) : List Nat :=
  let padded := msg ++ 128 :: (List.replicate ((64 - (msg.length + 9) % 64) % 64) 0 ++
    be64 (8 * msg.length))
  let fin := (chunks64 padded).foldl shaCompress sha256init
  wordsToBytes [fin.a, fin.b, fin.c, fin.d, fin.e, fin.f, fin.g, fin.h]

theorem sha256_length (msg : List Nat) : (sha256 msg).length = 32 := by
  rw [sha256, wordsToBytes_length]
  rfl

theorem sha256_lt (msg : List Nat) : ∀ b ∈ sha256 msg, b < 256 := by
  rw [sha256]
  exact wordsToBytes_lt _

/-- HMAC-SHA256 (model of the external `hmac` crate over `sha256`):
pad or hash the key to the 64-byte block size, then nest two SHA-256 calls
over the inner/outer padded keys. -/
def hmacSha256 (key msg : List Nat) : List Nat :=
  let k1 := if 64 < key.length then sha256 key else key
  let k0 := k1 ++ List.replicate (64 - k1.length) 0
  let ip := k0.map fun b => b ^^^ 0x36
  let op := k0.map fun b => b ^^^ 0x5c
  sha256 (op ++ sha256 (ip ++ msg))

theorem hmacSha256_length (key msg : List Nat) : (hmacSha256 key msg).length = 32 :=
  sha256_length _

theorem hmacSha256_lt (key msg : List Nat) : ∀ b ∈ hmacSha256 key msg, b < 256 :=
  sha256_lt _

/-- Iterated XOR accumulation of successive HMAC values, the inner loop of
PBKDF2 (model of the external `pbkdf2` crate). -/
def pbkdf2Loop (pw : List Nat) : Nat → List Nat → List Nat → List Nat
  | 0, _, acc => acc
  | n + 1, u, acc =>
    let u2 := hmacSha256 pw u
    pbkdf2Loop pw n u2 (xorBytes acc u2)

/-- PBKDF2-HMAC-SHA256 with a 32-byte output, as `pbkdf2_hmac_array::<Sha256, 32>`
of the external `pbkdf2` crate: a single block `F(P, S, c, 1)`. -/
def pbkdf2_hmac_array (pw salt : List Nat) (iterations : Nat) : List Nat :=
  let u1 := hmacSha256 pw (salt ++ [0, 0, 0, 1])
  pbkdf2Loop pw (iterations - 1) u1 u1

theorem pbkdf2Loop_length (pw : List Nat) (n : Nat) (u acc : List Nat)
    (hacc : acc.length = 32) : (pbkdf2Loop pw n u acc).length = 32 := by
  induction n generalizing u acc with
  | zero => simpa [pbkdf2Loop] using hacc
  | succ n ih =>
    simp only [pbkdf2Loop]
    exact ih _ _ (by rw [xorBytes_length, hacc, hmacSha256_length]; rfl)

theorem pbkdf2_hmac_array_length (pw salt : List Nat) (iterations : Nat) :
    (pbkdf2_hmac_array pw salt iterations).length = 32 :=
  pbkdf2Loop_length _ _ _ _ (hmacSha256_length _ _)

/-- Embeds `src/src/key_generation.rs::derive_from`: derives a 256-bit key
from a raw key with the salt and iteration count provided. -/
def derive_from (key salt : List Nat) (iterations : Nat) : List Nat :=
  pbkdf2_hmac_array key salt iterations

/-- Decode-failure taxonomy of the external `base64` crate
(`base64::DecodeError`), with the payload positions elided. -/
inductive Base64.DecodeError where
  | InvalidByte
  | InvalidLength
  | InvalidLastSymbol
  | InvalidPadding
deriving DecidableEq

/-- The standard base64 alphabet: maps a 6-bit value to its ASCII symbol. -/
def Base64.b64Char (n : Nat) : Nat :=
  if n < 26 then 65 + n
  else if n < 52 then 97 + (n - 26)
  else if n < 62 then 48 + (n - 52)
  else if n = 62 then 43
  else 47

/-- Inverse of the standard base64 alphabet on ASCII symbols. -/
def Base64.b64Val (c : Nat) : Option Nat :=
  if 65 ≤ c ∧ c ≤ 90 then some (c - 65)
  else if 97 ≤ c ∧ c ≤ 122 then some (26 + (c - 97))
  else if 48 ≤ c ∧ c ≤ 57 then some (52 + (c - 48))
  else if c = 43 then some 62
  else if c = 47 then some 63
  else none

/-- Embeds `src/src/utilities/base64.rs::encode` (the external crate's
`general_purpose::STANDARD` engine): standard alphabet with `=` padding.
Strings are represented as lists of ASCII codes; 61 is the pad symbol. -/
def Base64.encode : List Nat → List Nat
  | [] => []
  | [a] => [b64Char (a / 4), b64Char (a % 4 * 16), 61, 61]
  | [a, b] => [b64Char (a / 4), b64Char (a % 4 * 16 + b / 16), b64Char (b % 16 * 4), 61]
  | a :: b :: c :: rest =>
    b64Char (a / 4) :: b64Char (a % 4 * 16 + b / 16) :: b64Char (b % 16 * 4 + c / 64) ::
      b64Char (c % 64) :: encode rest

/-- Embeds `src/src/utilities/base64.rs::decode` (the external crate's
`general_purpose::STANDARD` engine): requires canonical padding, rejects
symbols outside the alphabet and nonzero trailing bits. -/
def Base64.decode : List Nat → Except Base64.DecodeError (List Nat)
  | [] => .ok []
  | w :: x :: y :: z :: rest =>
    match b64Val w, b64Val x with
    | some vw, some vx =>
      if z = 61 then
        if rest = [] then
          if y = 61 then
            if vx % 16 = 0 then .ok [vw * 4 + vx / 16] else .error .InvalidLastSymbol
          else
            match b64Val y with
            | some vy =>
              if vy % 4 = 0 then .ok [vw * 4 + vx / 16, vx % 16 * 16 + vy / 4]
              else .error .InvalidLastSymbol
            | none => .error .InvalidByte
        else .error .InvalidByte
      else
        match b64Val y, b64Val z with
        | some vy, some vz =>
          match decode rest with
          | .ok tail =>
            .ok ((vw * 4 + vx / 16) :: (vx % 16 * 16 + vy / 4) :: (vy % 4 * 64 + vz) :: tail)
          | .error e => .error e
        | _, _ => .error .InvalidByte
    | _, _ => .error .InvalidByte
  | _ => .error .InvalidLength

theorem Base64.b64Val_b64Char : ∀ n, n < 64 → Base64.b64Val (Base64.b64Char n) = some n := by
  decide

theorem Base64.b64Char_ne_pad : ∀ n, n < 64 → Base64.b64Char n ≠ 61 := by
  decide

theorem Base64.decode_encode (bs : List Nat) (h : ∀ b ∈ bs, b < 256) :
    Base64.decode (Base64.encode bs) = Except.ok bs := by
  match bs with
  | [] => rfl
  | [a] =>
    have ha : a < 256 := h a (by simp)
    simp only [encode, decode, b64Val_b64Char _ (by omega : a / 4 < 64),
      b64Val_b64Char _ (by omega : a % 4 * 16 < 64)]
    simp only [if_pos rfl, if_pos (by omega : a % 4 * 16 % 16 = 0)]
    have h1 : a / 4 * 4 + a % 4 * 16 / 16 = a := by omega
    rw [h1]
    simp
  | [a, b] =>
    have ha : a < 256 := h a (by simp)
    have hb : b < 256 := h b (by simp)
    simp only [encode, decode, b64Val_b64Char _ (by omega : a / 4 < 64),
      b64Val_b64Char _ (by omega : a % 4 * 16 + b / 16 < 64),
      b64Val_b64Char _ (by omega : b % 16 * 4 < 64)]
    simp only [if_pos rfl, if_neg (b64Char_ne_pad _ (by omega : b % 16 * 4 < 64)),
      if_pos (by omega : b % 16 * 4 % 4 = 0)]
    have h1 : a / 4 * 4 + (a % 4 * 16 + b / 16) / 16 = a := by omega
    have h2 : (a % 4 * 16 + b / 16) % 16 * 16 + b % 16 * 4 / 4 = b := by omega
    rw [h1, h2]
    simp
  | a :: b :: c :: rest =>
    have ha : a < 256 := h a (by simp)
    have hb : b < 256 := h b (by simp)
    have hc : c < 256 := h c (by simp)
    have htail : ∀ x ∈ rest, x < 256 := fun x hx => h x (by simp [hx])
    have ih := Base64.decode_encode rest htail
    simp only [encode, decode, b64Val_b64Char _ (by omega : a / 4 < 64),
      b64Val_b64Char _ (by omega : a % 4 * 16 + b / 16 < 64),
      b64Val_b64Char _ (by omega : b % 16 * 4 + c / 64 < 64),
      b64Val_b64Char _ (by omega : c % 64 < 64),
      if_neg (b64Char_ne_pad _ (by omega : c % 64 < 64))]
    rw [ih]
    have h1 : a / 4 * 4 + (a % 4 * 16 + b / 16) / 16 = a := by omega
    have h2 : (a % 4 * 16 + b / 16) % 16 * 16 + (b % 16 * 4 + c / 64) / 4 = b := by omega
    have h3 : (b % 16 * 4 + c / 64) % 4 * 64 + c % 64 = c := by omega
    rw [h1, h2, h3]

theorem Base64.encode_inj (as bs : List Nat) (ha : ∀ b ∈ as, b < 256)
    (hb : ∀ b ∈ bs, b < 256) (h : Base64.encode as = Base64.encode bs) : as = bs := by
  have h1 := Base64.decode_encode as ha
  rw [h, Base64.decode_encode bs hb] at h1
  exact (Except.ok.inj h1).symm

instance exceptDecEq {ε α : Type} [DecidableEq ε] [DecidableEq α] :
    DecidableEq (Except ε α) := fun x y =>
  match x, y with
  | .error a, .error b =>
    match decEq a b with
    | .isTrue h => .isTrue (congrArg Except.error h)
    | .isFalse h => .isFalse fun hh => h (Except.error.inj hh)
  | .error _, .ok _ => .isFalse fun hh => Except.noConfusion hh
  | .ok _, .error _ => .isFalse fun hh => Except.noConfusion hh
  | .ok a, .ok b =>
    match decEq a b with
    | .isTrue h => .isTrue (congrArg Except.ok h)
    | .isFalse h => .isFalse fun hh => h (Except.ok.inj hh)

/-- Embeds `src/src/error.rs::ConfigError`. -/
inductive ConfigError where
  | InvalidKeyLength
  | NoKeysProvided
deriving DecidableEq

/-- Embeds `src/src/error.rs::EncryptionError`; the `serde_json::Error`
payload is modelled as a message string. -/
inductive EncryptionError where
  | Config (e : ConfigError)
  | Encryption
  | Serialization (e : String)
deriving DecidableEq

/-- Embeds `src/src/error.rs::DecryptionError`. -/
inductive DecryptionError where
  | Base64Decoding (e : Base64.DecodeError)
  | Config (e : ConfigError)
  | Decryption
  | Deserialization (e : String)
deriving DecidableEq

/-- Outcome of a Rust computation returning `Result<α, ε>` whose execution
may additionally panic: `ok`, `err`, or `panic` with the panic message. -/
inductive RRes (ε α : Type) where
  | ok (a : α)
  | err (e : ε)
  | panic (msg : String)
deriving DecidableEq

/-- A 32-byte key, mirroring the Rust type `[u8; 32]` carried in
`Secret<[u8; 32]>`. -/
def Key32 : Type := { l : List Nat // l.length = 32 }

instance : DecidableEq Key32 := fun a b =>
  match decEq a.val b.val with
  | .isTrue h => .isTrue (Subtype.eq h)
  | .isFalse h => .isFalse fun hh => h (congrArg Subtype.val hh)

/-- Embeds the key-configuration contract used by `src/src/lib.rs` and
`src/src/config.rs`: an ordered list of ready-to-use 32-byte keys
(`fn keys(&self) -> Vec<Secret<[u8; 32]>>`), primary key first. -/
structure Config where
  keys : List Key32

/-- Embeds `src/src/config.rs::Config::primary_key`:
`self.keys().into_iter().next().ok_or(ConfigError::NoKeysProvided)`. -/
def Config.primary_key (c : Config) : Except ConfigError Key32 :=
  match c.keys with
  | [] => .error ConfigError.NoKeysProvided
  | k :: _ => .ok k

/-- Panic message of the `assert!` in `src/src/key_config.rs::KeyConfig::key`. -/
def mustProvideKeyMsg : String := "Must provide at least one key."

/-- Panic message of the `expect` in `src/src/key_config.rs::KeyConfig::derive_key`. -/
def keyLen32Msg : String := "Key must be 32 bytes long."

/-- Embeds the legacy trait `src/src/key_config.rs::KeyConfig`: raw keys of
arbitrary length, a derivation salt, and an iteration count whose `none`
value disables key derivation (`KEY_DERIVATION_ITERATIONS`, default 2^16). -/
structure KeyConfig where
  raw_keys : List (List Nat)
  key_derivation_salt : List Nat
  key_derivation_iterations : Option Nat

/-- Embeds `src/src/key_config.rs::KeyConfig::derive_key`: with derivation
disabled the raw key is converted by `try_into().expect(..)`, panicking
unless it is exactly 32 bytes; with derivation enabled it is
`pbkdf2_hmac_array::<Sha256, 32>(key, salt, iterations)`. -/
def KeyConfig.derive_key (c : KeyConfig) (key : List Nat) : RRes ConfigError (List Nat) :=
  match c.key_derivation_iterations with
  | none => if key.length = 32 then .ok key else .panic keyLen32Msg
  | some iterations => .ok (pbkdf2_hmac_array key c.key_derivation_salt iterations)

/-- Embeds `src/src/key_config.rs::KeyConfig::key`: asserts the raw-key list
is non-empty (panicking otherwise) and derives the first raw key. -/
def KeyConfig.key (c : KeyConfig) : RRes ConfigError (List Nat) :=
  match c.raw_keys with
  | [] => .panic mustProvideKeyMsg
  | k :: _ => c.derive_key k

/-- Incremental MAC state of the external `hmac` crate's `Hmac<Sha256>`:
the key together with the data accumulated by `update`. -/
structure HmacSha256Mac where
  key : List Nat
  data : List Nat

/-- `Hmac::<Sha256>::new_from_slice`: HMAC accepts keys of any length, so
this never returns the `InvalidLength` error. -/
def HmacSha256Mac.new_from_slice (key : List Nat) : Except String HmacSha256Mac :=
  .ok ⟨key, []⟩

def HmacSha256Mac.update (m : HmacSha256Mac) (d : List Nat) : HmacSha256Mac :=
  ⟨m.key, m.data ++ d⟩

/-- `finalize().into_bytes()`: the 32-byte HMAC-SHA256 digest. -/
def HmacSha256Mac.finalize_bytes (m : HmacSha256Mac) : List Nat :=
  hmacSha256 m.key m.data

/-- Embeds `src/src/strategy.rs::Deterministic::generate_nonce`: HMAC-SHA256
of the payload keyed by the 32-byte key, truncated to the 192-bit (24-byte)
nonce of that revision's AEAD. -/
def Deterministic.generate_nonce (payload : List Nat) (key : Key32) :
    Except ConfigError (List Nat) :=
  match HmacSha256Mac.new_from_slice key.val with
  | .error _ => .error ConfigError.InvalidKeyLength
  | .ok mac0 =>
    let mac := mac0.update payload
    let digest := mac.finalize_bytes
    .ok (digest.take 24)

/-- CTR-style keystream blocks of the AES-256-GCM model: 32 pseudo-random
bytes per counter value, keyed by key and nonce. -/
def AesGcm.ksBlocks (key nonce : List Nat) : Nat → List Nat
  | 0 => []
  | n + 1 => AesGcm.ksBlocks key nonce n ++ hmacSha256 key (nonce ++ be32 n)

/-- Modelled from the spec: the external `aes_gcm` crate's keystream.  The
spec fixes only the AEAD boundary (length-preserving encryption); the
keystream is a deterministic pseudo-random function of key and nonce,
truncated to the buffer length. -/
def AesGcm.keystream (key nonce : List Nat) (n : Nat) : List Nat :=
  (AesGcm.ksBlocks key nonce (n / 32 + 1)).take n

/-- Modelled from the spec: the external `aes_gcm` crate's 16-byte detached
authentication tag, a deterministic function of key, nonce and ciphertext. -/
def AesGcm.auth_tag (key nonce ct : List Nat) : List Nat :=
  (hmacSha256 key (be32 nonce.length ++ nonce ++ ct)).take 16

/-- Modelled from the spec: `Aes256Gcm::encrypt_in_place_detached` — encrypts
the buffer in place (ciphertext of the same length) and returns the detached
16-byte tag. -/
def AesGcm.encrypt_in_place_detached (key nonce buffer : List Nat) :
    List Nat × List Nat :=
  let ct := xorBytes buffer (AesGcm.keystream key nonce buffer.length)
  (ct, AesGcm.auth_tag key nonce ct)

/-- Modelled from the spec: `Aes256Gcm::decrypt_in_place_detached` —
recomputes the tag over the ciphertext and fails unless it matches the
supplied tag; on success returns the decrypted buffer. -/
def AesGcm.decrypt_in_place_detached (key nonce buffer tag : List Nat) :
    Option (List Nat) :=
  if AesGcm.auth_tag key nonce buffer = tag then
    some (xorBytes buffer (AesGcm.keystream key nonce buffer.length))
  else
    none

theorem AesGcm.ksBlocks_length (key nonce : List Nat) (n : Nat) :
    (AesGcm.ksBlocks key nonce n).length = 32 * n := by
  induction n with
  | zero => rfl
  | succ n ih => simp [AesGcm.ksBlocks, ih, hmacSha256_length]; omega

theorem AesGcm.keystream_length (key nonce : List Nat) (n : Nat) :
    (AesGcm.keystream key nonce n).length = n := by
  rw [AesGcm.keystream, List.length_take, AesGcm.ksBlocks_length]
  omega

theorem AesGcm.ksBlocks_lt (key nonce : List Nat) (n : Nat) :
    ∀ b ∈ AesGcm.ksBlocks key nonce n, b < 256 := by
  induction n with
  | zero => simp [AesGcm.ksBlocks]
  | succ n ih =>
    intro b hb
    simp only [AesGcm.ksBlocks, List.mem_append] at hb
    rcases hb with h | h
    · exact ih b h
    · exact hmacSha256_lt _ _ b h

theorem AesGcm.keystream_lt (key nonce : List Nat) (n : Nat) :
    ∀ b ∈ AesGcm.keystream key nonce n, b < 256 := fun b hb =>
  AesGcm.ksBlocks_lt key nonce _ b (List.mem_of_mem_take hb)

theorem AesGcm.auth_tag_length (key nonce ct : List Nat) :
    (AesGcm.auth_tag key nonce ct).length = 16 := by
  rw [AesGcm.auth_tag, List.length_take, hmacSha256_length]
  rfl

theorem AesGcm.auth_tag_lt (key nonce ct : List Nat) :
    ∀ b ∈ AesGcm.auth_tag key nonce ct, b < 256 := fun b hb =>
  hmacSha256_lt _ _ b (List.mem_of_mem_take hb)

/-- The sealed nonce-strategy set bound to `EncryptedMessage` in
`src/src/lib.rs` (the spec's closed pair of variants). -/
inductive Strategy where
  | Deterministic
  | Randomized
deriving DecidableEq

/-- Modelled from the spec: the `Strategy::generate_nonce_for(payload, key)`
revision called by `src/src/lib.rs` is not among the source files.  Per the
spec, Deterministic yields `truncate(HMAC-SHA256(key, payload), nonce_len)`
and Randomized draws `nonce_len` CSPRNG bytes; `nonce_len` is 12 for the
AES-256-GCM cipher used by lib.rs.  The CSPRNG is modelled by the explicit
`rng` byte-stream argument, which Deterministic ignores. -/
def generate_nonce_for (strat : Strategy) (payload key rng : List Nat) : List Nat :=
  match strat with
  | Strategy.Deterministic => (hmacSha256 key payload).take 12
  | Strategy.Randomized => rng.take 12

/-- Embeds `src/src/lib.rs::EncryptedMessageHeaders`: the base64-encoded
nonce (`iv`) and auth tag (`at`), as ASCII strings. -/
structure EncryptedMessageHeaders where
  nonce : List Nat
  tag : List Nat
deriving DecidableEq

/-- Embeds `src/src/lib.rs::EncryptedMessage`: the base64-encoded encrypted
payload `p` and the headers `h`.  The phantom type parameters binding the
payload type, strategy and key configuration carry no runtime data and are
passed explicitly to the operations below. -/
structure EncryptedMessage where
  payload : List Nat
  headers : EncryptedMessageHeaders
deriving DecidableEq

/-- Boundary model of the external `serde_json` crate for a payload type
`P`: `to_vec` serializes a value to JSON bytes (or a serialization error)
and `from_slice` parses JSON bytes back (or a deserialization error). -/
structure Serde (P : Type) where
  to_vec : P → Except String (List Nat)
  from_slice : List Nat → Except String P

/-- Embeds `src/src/lib.rs::EncryptedMessage::encrypt_with_key_config`:
serialize the payload (`Serialization` error on failure), obtain the primary
key, compute the strategy nonce, seal with AES-256-GCM
(`new_from_slice(key).unwrap()` cannot fail on a 32-byte key), and
base64-encode ciphertext, nonce and tag into the envelope.  The primary-key
lookup is `Config.primary_key`; the `KeyConfig` trait revision used by
lib.rs is not among the source files, and per the spec an empty key list is
reported as `NoKeysProvided`, surfacing here as a `Config`-wrapped error. -/
def encrypt_with_key_config {P : Type} (sd : Serde P) (strat : Strategy) (payload : P)
    (key_config : Config) (rng : List Nat) : RRes EncryptionError EncryptedMessage :=
  match sd.to_vec payload with
  | .error e => .err (EncryptionError.Serialization e)
  | .ok payloadBytes =>
    match key_config.primary_key with
    | .error e => .err (EncryptionError.Config e)
    | .ok key =>
      let nonce := generate_nonce_for strat payloadBytes key.val rng
      let sealed := AesGcm.encrypt_in_place_detached key.val nonce payloadBytes
      .ok ⟨Base64.encode sealed.1, ⟨Base64.encode nonce, Base64.encode sealed.2⟩⟩

/-- Panic message of the nonce slice-to-array conversion
`nonce.as_slice().into()` in `decrypt_with_key_config` (the external
`generic_array` crate panics when the slice is not 12 bytes). -/
def nonceSliceMsg : String := "slice length mismatch: nonce must be 12 bytes"

/-- Panic message of the tag slice-to-array conversion
`tag.as_slice().into()` in `decrypt_with_key_config` (the external
`generic_array` crate panics when the slice is not 16 bytes). -/
def tagSliceMsg : String := "slice length mismatch: tag must be 16 bytes"

/-- Embeds the key loop of `src/src/lib.rs::decrypt_with_key_config`: for
each key in order, build the cipher (infallible for 32-byte keys), convert
the decoded nonce and tag to fixed-size arrays (panicking on a length
mismatch, as the slice-to-array conversions do), attempt the AEAD open,
continue on failure, and on the first success deserialize the buffer,
returning `Deserialization` on a parse failure; exhaustion yields
`Decryption`. -/
def try_keys {P : Type} (sd : Serde P) (keys : List Key32)
    (payload nonce tag : List Nat) : RRes DecryptionError P :=
  match keys with
  | [] => .err DecryptionError.Decryption
  | key :: rest =>
    if nonce.length = 12 then
      if tag.length = 16 then
        match AesGcm.decrypt_in_place_detached key.val nonce payload tag with
        | none => try_keys sd rest payload nonce tag
        | some buffer =>
          match sd.from_slice buffer with
          | .ok p => .ok p
          | .error e => .err (DecryptionError.Deserialization e)
      else .panic tagSliceMsg
    else .panic nonceSliceMsg

/-- Embeds `src/src/lib.rs::EncryptedMessage::decrypt_with_key_config`:
base64-decode payload, nonce and tag in that order (propagating
`Base64Decoding`), then try every key of the configuration in order. -/
def decrypt_with_key_config {P : Type} (sd : Serde P) (self : EncryptedMessage)
    (key_config : Config) : RRes DecryptionError P :=
  match Base64.decode self.payload with
  | .error e => .err (DecryptionError.Base64Decoding e)
  | .ok payload =>
    match Base64.decode self.headers.nonce with
    | .error e => .err (DecryptionError.Base64Decoding e)
    | .ok nonce =>
      match Base64.decode self.headers.tag with
      | .error e => .err (DecryptionError.Base64Decoding e)
      | .ok tag => try_keys sd key_config.keys payload nonce tag

/-- The (ciphertext, nonce, tag) triple computed by a successful
`encrypt_with_key_config` call from the serialized payload bytes. -/
def encParts (strat : Strategy) (key bs rng : List Nat) :
    List Nat × List Nat × List Nat :=
  let nonce := generate_nonce_for strat bs key rng
  let sealed := AesGcm.encrypt_in_place_detached key nonce bs
  (sealed.1, nonce, sealed.2)

theorem encrypt_eq_ok {P : Type} (sd : Serde P) (strat : Strategy) (v : P)
    (cfg : Config) (rng bs : List Nat) (key : Key32) (rest : List Key32)
    (hser : sd.to_vec v = Except.ok bs) (hkeys : cfg.keys = key :: rest) :
    encrypt_with_key_config sd strat v cfg rng =
      RRes.ok ⟨Base64.encode (encParts strat key.val bs rng).1,
        ⟨Base64.encode (encParts strat key.val bs rng).2.1,
         Base64.encode (encParts strat key.val bs rng).2.2⟩⟩ := by
  simp [encrypt_with_key_config, hser, Config.primary_key, hkeys, encParts]

theorem generate_nonce_for_length (strat : Strategy) (payload key rng : List Nat)
    (hr : 12 ≤ rng.length) : (generate_nonce_for strat payload key rng).length = 12 := by
  cases strat with
  | Deterministic =>
    rw [generate_nonce_for, List.length_take, hmacSha256_length]
    omega
  | Randomized =>
    rw [generate_nonce_for, List.length_take]
    omega

theorem generate_nonce_for_lt (strat : Strategy) (payload key rng : List Nat)
    (hrb : ∀ b ∈ rng, b < 256) : ∀ b ∈ generate_nonce_for strat payload key rng, b < 256 := by
  cases strat with
  | Deterministic =>
    exact fun b hb => hmacSha256_lt _ _ b (List.mem_of_mem_take hb)
  | Randomized =>
    exact fun b hb => hrb b (List.mem_of_mem_take hb)

theorem encParts_ct_length (strat : Strategy) (key bs rng : List Nat) :
    (encParts strat key bs rng).1.length = bs.length := by
  rw [encParts]
  simp only [AesGcm.encrypt_in_place_detached]
  rw [xorBytes_length, AesGcm.keystream_length]
  omega

theorem encParts_ct_lt (strat : Strategy) (key bs rng : List Nat)
    (hbs : ∀ b ∈ bs, b < 256) : ∀ b ∈ (encParts strat key bs rng).1, b < 256 := by
  rw [encParts]
  simp only [AesGcm.encrypt_in_place_detached]
  exact xorBytes_lt _ _ hbs (AesGcm.keystream_lt _ _ _)

theorem encParts_tag_length (strat : Strategy) (key bs rng : List Nat) :
    (encParts strat key bs rng).2.2.length = 16 := by
  rw [encParts]
  simp only [AesGcm.encrypt_in_place_detached]
  exact AesGcm.auth_tag_length _ _ _

theorem encParts_tag_lt (strat : Strategy) (key bs rng : List Nat) :
    ∀ b ∈ (encParts strat key bs rng).2.2, b < 256 := by
  rw [encParts]
  simp only [AesGcm.encrypt_in_place_detached]
  exact AesGcm.auth_tag_lt _ _ _

/-- Opening the freshly sealed envelope with the sealing key recovers the
serialized payload: the recomputed tag matches and the keystream cancels. -/
theorem encParts_open (strat : Strategy) (key bs rng : List Nat) :
    AesGcm.decrypt_in_place_detached key (encParts strat key bs rng).2.1
      (encParts strat key bs rng).1 (encParts strat key bs rng).2.2 = some bs := by
  rw [encParts]
  simp only [AesGcm.encrypt_in_place_detached, AesGcm.decrypt_in_place_detached, if_pos rfl]
  have hlen : (xorBytes bs (AesGcm.keystream key
      (generate_nonce_for strat bs key rng) bs.length)).length = bs.length := by
    rw [xorBytes_length, AesGcm.keystream_length]
    omega
  rw [hlen]
  exact congrArg some (xorBytes_cancel _ _ (by simp [AesGcm.keystream_length]))

/-- Exhaustion: when no key of the list authenticates the envelope, the key
loop returns the single `Decryption` error. -/
theorem try_keys_all_fail {P : Type} (sd : Serde P) (keys : List Key32)
    (payload nonce tag : List Nat) (hn : nonce.length = 12) (ht : tag.length = 16)
    (hfail : ∀ k ∈ keys, AesGcm.decrypt_in_place_detached k.val nonce payload tag = none) :
    try_keys sd keys payload nonce tag = RRes.err DecryptionError.Decryption := by
  induction keys with
  | nil => rfl
  | cons k rest ih =>
    rw [try_keys, if_pos hn, if_pos ht, hfail k (by simp)]
    exact ih fun k2 hk2 => hfail k2 (by simp [hk2])

/-- Keys that fail to authenticate are skipped without affecting the result. -/
theorem try_keys_skip {P : Type} (sd : Serde P) (pre rest : List Key32)
    (payload nonce tag : List Nat) (hn : nonce.length = 12) (ht : tag.length = 16)
    (hfail : ∀ k ∈ pre, AesGcm.decrypt_in_place_detached k.val nonce payload tag = none) :
    try_keys sd (pre ++ rest) payload nonce tag = try_keys sd rest payload nonce tag := by
  induction pre with
  | nil => rfl
  | cons k pre ih =>
    rw [List.cons_append, try_keys, if_pos hn, if_pos ht, hfail k (by simp)]
    exact ih fun k2 hk2 => hfail k2 (by simp [hk2])

/-- Classifies the decrypt outcomes the spec allows on well-formed envelope
fields: a payload, `Decryption`, or `Deserialization` — anything else
(a panic, a base64 or config error) is `false`. -/
def decryptOutcomeOk {P : Type} : RRes DecryptionError P → Bool
  | .ok _ => true
  | .err DecryptionError.Decryption => true
  | .err (DecryptionError.Deserialization _) => true
  | _ => false

/-- With a 12-byte nonce and a 16-byte tag the key loop never panics: every
outcome is a payload, `Decryption`, or `Deserialization`. -/
theorem try_keys_no_panic {P : Type} (sd : Serde P) (keys : List Key32)
    (payload nonce tag : List Nat) (hn : nonce.length = 12) (ht : tag.length = 16) :
    decryptOutcomeOk (try_keys sd keys payload nonce tag) = true := by
  induction keys with
  | nil => rfl
  | cons k rest ih =>
    rw [try_keys, if_pos hn, if_pos ht]
    cases hdec : AesGcm.decrypt_in_place_detached k.val nonce payload tag with
    | none => exact ih
    | some buffer =>
      cases hds : sd.from_slice buffer with
      | ok p => simp [hds, decryptOutcomeOk]
      | error e => simp [hds, decryptOutcomeOk]

set_option maxRecDepth 100000

/-- Serialization error message of the single-byte demo serializer. -/
def bigValMsg : String := "value does not fit in one byte"

/-- Deserialization error message of the single-byte demo serializer. -/
def badBytesMsg : String := "unexpected JSON bytes"

/-- A concrete payload codec for witnesses: a `Nat` below 256 round-trips
through its single-byte representation. -/
def serdeU8 : Serde Nat :=
  ⟨fun n => if n < 256 then Except.ok [n] else Except.error bigValMsg,
   fun l =>
     match l with
     | [n] => if n < 256 then Except.ok n else Except.error badBytesMsg
     | _ => Except.error badBytesMsg⟩

/-- Deserialization error message of the all-rejecting demo deserializer. -/
def rejectMsg : String := "refuses every payload"

/-- A payload codec whose deserializer rejects everything, for exercising
the `Deserialization` path. -/
def serdeRejectAll : Serde Nat :=
  ⟨fun n => if n < 256 then Except.ok [n] else Except.error bigValMsg,
   fun _ => Except.error rejectMsg⟩

def keyA32 : Key32 := ⟨List.replicate 32 1, by decide⟩

def keyB32 : Key32 := ⟨List.replicate 32 2, by decide⟩

def cfgOne : Config := ⟨[keyA32]⟩

def cfgRot : Config := ⟨[keyB32, keyA32]⟩

/-- C1: for every payload value `v` that serializes to JSON bytes `bs` (with
`from_slice` returning `v` on those bytes, the serde boundary contract) and
every valid key configuration (non-empty list of 32-byte keys), decrypting
the envelope produced by `encrypt_with_key_config` with the same
configuration succeeds and returns `v`.  The `rng` hypotheses state that the
CSPRNG stream supplies at least the 12 nonce bytes. -/
theorem C1_round_trip {P : Type} (sd : Serde P) (strat : Strategy) (v : P)
    (bs : List Nat) (cfg : Config) (rng : List Nat) (env : EncryptedMessage)
    (hser : sd.to_vec v = Except.ok bs)
    (hde : sd.from_slice bs = Except.ok v)
    (hbs : ∀ b ∈ bs, b < 256)
    (hkeys : cfg.keys ≠ [])
    (hr : 12 ≤ rng.length)
    (hrb : ∀ b ∈ rng, b < 256)
    (henc : encrypt_with_key_config sd strat v cfg rng = RRes.ok env) :
    decrypt_with_key_config sd env cfg = RRes.ok v := by
  obtain ⟨key, rest, hk⟩ : ∃ key rest, cfg.keys = key :: rest := by
    cases hc : cfg.keys with
    | nil => exact absurd hc hkeys
    | cons k r => exact ⟨k, r, rfl⟩
  rw [encrypt_eq_ok sd strat v cfg rng bs key rest hser hk] at henc
  have henv : env = ⟨Base64.encode (encParts strat key.val bs rng).1,
      ⟨Base64.encode (encParts strat key.val bs rng).2.1,
       Base64.encode (encParts strat key.val bs rng).2.2⟩⟩ := (RRes.ok.inj henc).symm
  subst henv
  have hdp := Base64.decode_encode (encParts strat key.val bs rng).1
    (encParts_ct_lt strat key.val bs rng hbs)
  have hdn := Base64.decode_encode (encParts strat key.val bs rng).2.1
    (generate_nonce_for_lt strat bs key.val rng hrb)
  have hdt := Base64.decode_encode (encParts strat key.val bs rng).2.2
    (encParts_tag_lt strat key.val bs rng)
  have hnlen : (encParts strat key.val bs rng).2.1.length = 12 :=
    generate_nonce_for_length strat bs key.val rng hr
  have htlen : (encParts strat key.val bs rng).2.2.length = 16 :=
    encParts_tag_length strat key.val bs rng
  simp only [decrypt_with_key_config, hdp, hdn, hdt, hk, try_keys,
    if_pos hnlen, if_pos htlen, encParts_open, hde]

/-- A 12-byte CSPRNG stream for witnesses. -/
def demoRng : List Nat := List.replicate 12 0

/-- The envelope obtained by deterministically encrypting the byte `42`
under `cfgOne` with the demo CSPRNG stream. -/
def demoEnvR : EncryptedMessage :=
  match encrypt_with_key_config serdeU8 Strategy.Deterministic 42 cfgOne demoRng with
  | .ok e => e
  | _ => ⟨[], ⟨[], []⟩⟩

/-- Witness for C1 at the byte payload `42` and the one-key configuration. -/
theorem C1_round_trip_witness :
    decrypt_with_key_config serdeU8 demoEnvR cfgOne = RRes.ok 42 :=
  C1_round_trip serdeU8 Strategy.Deterministic 42 [42] cfgOne demoRng demoEnvR
    rfl rfl (by decide) (by decide) (by decide) (by decide) (by decide)

/-- C6: with the Deterministic strategy, two encrypt calls on the same
payload and key configuration return identical results whatever the CSPRNG
would have supplied — bitwise-equal envelopes (equal base64 ciphertext,
nonce and tag strings), since the envelope consists of those strings. -/
theorem C6_deterministic_encrypt_identical {P : Type} (sd : Serde P) (v : P)
    (cfg : Config) (rng1 rng2 : List Nat) :
    encrypt_with_key_config sd Strategy.Deterministic v cfg rng1 =
      encrypt_with_key_config sd Strategy.Deterministic v cfg rng2 := by
  cases hser : sd.to_vec v with
  | error e => simp [encrypt_with_key_config, hser]
  | ok bs =>
    cases hpk : cfg.primary_key with
    | error e => simp [encrypt_with_key_config, hser, hpk]
    | ok key => simp [encrypt_with_key_config, hser, hpk, generate_nonce_for]

/-- C7: the Deterministic strategy's nonce is exactly the HMAC-SHA256 digest
of the payload keyed by the 32-byte key, truncated to the AEAD's fixed nonce
length — 24 bytes for the 192-bit-nonce revision in `strategy.rs`, 12 bytes
for the AES-256-GCM pipeline of `lib.rs` — and depends on nothing besides
key and payload (in particular not on the CSPRNG stream). -/
theorem C7_deterministic_nonce_hmac (payload : List Nat) (key : Key32)
    (rng1 rng2 : List Nat) :
    Deterministic.generate_nonce payload key =
        Except.ok ((hmacSha256 key.val payload).take 24)
      ∧ ((hmacSha256 key.val payload).take 24).length = 24
      ∧ generate_nonce_for Strategy.Deterministic payload key.val rng1 =
          (hmacSha256 key.val payload).take 12
      ∧ (generate_nonce_for Strategy.Deterministic payload key.val rng1).length = 12
      ∧ generate_nonce_for Strategy.Deterministic payload key.val rng1 =
          generate_nonce_for Strategy.Deterministic payload key.val rng2 := by
  refine ⟨rfl, ?_, rfl, ?_, rfl⟩
  · rw [List.length_take, hmacSha256_length]
    omega
  · rw [generate_nonce_for, List.length_take, hmacSha256_length]
    omega

/-- Classifies encrypt outcomes: a successful envelope, a `Serialization`
error or a `Config`-wrapped error are `true`; the `Encryption` variant and
panics are `false`. -/
def encryptResultShape : RRes EncryptionError EncryptedMessage → Bool
  | .ok _ => true
  | .err (EncryptionError.Serialization _) => true
  | .err (EncryptionError.Config _) => true
  | .err EncryptionError.Encryption => false
  | .panic _ => false

/-- C10: `encrypt_with_key_config` never returns the
`EncryptionError::Encryption` variant (and never panics in this model):
cipher construction and sealing are unwrapped on a 32-byte key, so the only
error values are `Serialization` and `Config`-wrapped errors. -/
theorem C10_encryption_variant_unreachable {P : Type} (sd : Serde P)
    (strat : Strategy) (v : P) (cfg : Config) (rng : List Nat) :
    encryptResultShape (encrypt_with_key_config sd strat v cfg rng) = true := by
  cases hser : sd.to_vec v with
  | error e => simp [encrypt_with_key_config, hser, encryptResultShape]
  | ok bs =>
    cases hpk : cfg.primary_key with
    | error e => simp [encrypt_with_key_config, hser, hpk, encryptResultShape]
    | ok key => simp [encrypt_with_key_config, hser, hpk, encryptResultShape]

/-- Counterexample for C3: on an empty raw-key list, the legacy
`KeyConfig::key` of `key_config.rs` does not return `NoKeysProvided` — its
`assert!` panics with the message `Must provide at least one key.`. -/
theorem C3_counterexample :
    KeyConfig.key ⟨[], [1, 2], some 1⟩ = RRes.panic mustProvideKeyMsg := rfl

/-- C3 amended: an empty key list is reported as `NoKeysProvided` without a
panic by `Config::primary_key` of `config.rs` (and hence by encrypt calls
through the lib.rs pipeline, whose serialization succeeds), while the legacy
`KeyConfig::key` of `key_config.rs` instead panics on its assertion. -/
theorem C3_empty_keys_amended :
    (∀ c : KeyConfig, c.raw_keys = [] → c.key = RRes.panic mustProvideKeyMsg)
    ∧ (∀ c : Config, c.keys = [] →
        c.primary_key = Except.error ConfigError.NoKeysProvided)
    ∧ (∀ (P : Type) (sd : Serde P) (strat : Strategy) (v : P) (bs rng : List Nat)
        (cfg : Config), sd.to_vec v = Except.ok bs → cfg.keys = [] →
        encrypt_with_key_config sd strat v cfg rng =
          RRes.err (EncryptionError.Config ConfigError.NoKeysProvided)) := by
  refine ⟨?_, ?_, ?_⟩
  · intro c hc
    rw [KeyConfig.key, hc]
  · intro c hc
    rw [Config.primary_key, hc]
  · intro P sd strat v bs rng cfg hser hc
    rw [encrypt_with_key_config, hser, Config.primary_key, hc]

/-- Witness for the amended C3 at concrete empty configurations. -/
theorem C3_empty_keys_witness :
    KeyConfig.key ⟨[], [3], some 2⟩ = RRes.panic mustProvideKeyMsg
    ∧ Config.primary_key ⟨[]⟩ = Except.error ConfigError.NoKeysProvided
    ∧ encrypt_with_key_config serdeU8 Strategy.Deterministic 7 ⟨[]⟩ demoRng =
        RRes.err (EncryptionError.Config ConfigError.NoKeysProvided) :=
  ⟨C3_empty_keys_amended.1 _ rfl, C3_empty_keys_amended.2.1 _ rfl,
   C3_empty_keys_amended.2.2 Nat serdeU8 Strategy.Deterministic 7 [7] demoRng ⟨[]⟩ rfl rfl⟩

/-- Counterexample for C4: with key derivation disabled, a raw key that is
not 32 bytes makes `KeyConfig::derive_key` panic through its
`expect("Key must be 32 bytes long.")` — it does not return the
`InvalidKeyLength` error value. -/
theorem C4_counterexample :
    KeyConfig.derive_key ⟨[[1]], [9], none⟩ [1, 2, 3] = RRes.panic keyLen32Msg := by
  decide

/-- C4 amended: with derivation disabled, a raw key of the wrong length
panics (rather than yielding `InvalidKeyLength`) and a 32-byte raw key is
returned as-is; with derivation enabled, `derive_key` returns the 32-byte
PBKDF2-HMAC-SHA256 of the raw key with the configuration's salt and
iteration count. -/
theorem C4_derive_key_amended :
    (∀ (c : KeyConfig) (key : List Nat), c.key_derivation_iterations = none →
        key.length ≠ 32 → c.derive_key key = RRes.panic keyLen32Msg)
    ∧ (∀ (c : KeyConfig) (key : List Nat), c.key_derivation_iterations = none →
        key.length = 32 → c.derive_key key = RRes.ok key)
    ∧ (∀ (c : KeyConfig) (key : List Nat) (n : Nat),
        c.key_derivation_iterations = some n →
        c.derive_key key = RRes.ok (derive_from key c.key_derivation_salt n))
    ∧ (∀ (key salt : List Nat) (n : Nat), (derive_from key salt n).length = 32) := by
  refine ⟨?_, ?_, ?_, ?_⟩
  · intro c key hits hlen
    rw [KeyConfig.derive_key, hits, if_neg hlen]
  · intro c key hits hlen
    rw [KeyConfig.derive_key, hits, if_pos hlen]
  · intro c key n hits
    rw [KeyConfig.derive_key, hits, derive_from]
  · intro key salt n
    exact pbkdf2_hmac_array_length key salt n

/-- Witness for the amended C4 at concrete configurations. -/
theorem C4_derive_key_witness :
    KeyConfig.derive_key ⟨[], [7], none⟩ [1, 2] = RRes.panic keyLen32Msg
    ∧ KeyConfig.derive_key ⟨[], [7], some 1⟩ [1, 2] =
        RRes.ok (derive_from [1, 2] [7] 1)
    ∧ (derive_from [1, 2] [7] 1).length = 32 :=
  ⟨C4_derive_key_amended.1 _ _ rfl (by decide),
   C4_derive_key_amended.2.2.1 _ _ 1 rfl,
   C4_derive_key_amended.2.2.2 [1, 2] [7] 1⟩

/-- An envelope whose fields are all valid base64 but whose nonce decodes to
3 bytes instead of 12. -/
def badNonceEnv : EncryptedMessage :=
  ⟨Base64.encode [0, 0, 0], ⟨Base64.encode [0, 0, 0], Base64.encode (List.replicate 16 0)⟩⟩

/-- Counterexample for C2: on an envelope whose nonce field is valid base64
of the wrong length (3 decoded bytes), `decrypt_with_key_config` panics in
the nonce slice-to-array conversion — it does not return the `Decryption` or
`Deserialization` error the claim promises. -/
theorem C2_counterexample :
    decrypt_with_key_config serdeU8 badNonceEnv cfgOne = RRes.panic nonceSliceMsg := by
  decide

/-- C2 amended: a non-base64 ciphertext, nonce or tag field yields the
`Base64Decoding` error (fields checked in that order); with all fields valid
base64, a 12-byte decoded nonce and a 16-byte decoded tag, decrypt never
panics — the outcome is a payload, `Decryption` or `Deserialization`; but a
valid-base64 nonce (resp. tag) of any other decoded length panics in the
slice-to-array conversion whenever at least one key is configured. -/
theorem C2_malformed_input_amended {P : Type} (sd : Serde P)
    (env : EncryptedMessage) (cfg : Config) :
    (∀ e, Base64.decode env.payload = Except.error e →
      decrypt_with_key_config sd env cfg = RRes.err (DecryptionError.Base64Decoding e))
    ∧ (∀ p e, Base64.decode env.payload = Except.ok p →
        Base64.decode env.headers.nonce = Except.error e →
        decrypt_with_key_config sd env cfg = RRes.err (DecryptionError.Base64Decoding e))
    ∧ (∀ p n e, Base64.decode env.payload = Except.ok p →
        Base64.decode env.headers.nonce = Except.ok n →
        Base64.decode env.headers.tag = Except.error e →
        decrypt_with_key_config sd env cfg = RRes.err (DecryptionError.Base64Decoding e))
    ∧ (∀ p n t, Base64.decode env.payload = Except.ok p →
        Base64.decode env.headers.nonce = Except.ok n →
        Base64.decode env.headers.tag = Except.ok t →
        n.length = 12 → t.length = 16 →
        decryptOutcomeOk (decrypt_with_key_config sd env cfg) = true)
    ∧ (∀ p n t k rest, Base64.decode env.payload = Except.ok p →
        Base64.decode env.headers.nonce = Except.ok n →
        Base64.decode env.headers.tag = Except.ok t →
        cfg.keys = k :: rest → n.length ≠ 12 →
        decrypt_with_key_config sd env cfg = RRes.panic nonceSliceMsg)
    ∧ (∀ p n t k rest, Base64.decode env.payload = Except.ok p →
        Base64.decode env.headers.nonce = Except.ok n →
        Base64.decode env.headers.tag = Except.ok t →
        cfg.keys = k :: rest → n.length = 12 → t.length ≠ 16 →
        decrypt_with_key_config sd env cfg = RRes.panic tagSliceMsg) := by
  refine ⟨?_, ?_, ?_, ?_, ?_, ?_⟩
  · intro e hp
    simp only [decrypt_with_key_config, hp]
  · intro p e hp hn
    simp only [decrypt_with_key_config, hp, hn]
  · intro p n e hp hn ht
    simp only [decrypt_with_key_config, hp, hn, ht]
  · intro p n t hp hn ht hnl htl
    simp only [decrypt_with_key_config, hp, hn, ht]
    exact try_keys_no_panic sd cfg.keys p n t hnl htl
  · intro p n t k rest hp hn ht hk hnl
    simp only [decrypt_with_key_config, hp, hn, ht, hk, try_keys, if_neg hnl]
  · intro p n t k rest hp hn ht hk hnl htl
    simp only [decrypt_with_key_config, hp, hn, ht, hk, try_keys,
      if_pos hnl, if_neg htl]

/-- Witness for the amended C2: a non-base64 payload yields `Base64Decoding`;
well-formed field lengths never panic; a 4-byte nonce or a 2-byte tag panics
in the respective conversion. -/
theorem C2_malformed_input_witness :
    decrypt_with_key_config serdeU8
        ⟨[105, 110, 118, 97, 108, 105, 100],
         ⟨Base64.encode (List.replicate 12 0), Base64.encode (List.replicate 16 0)⟩⟩ cfgOne =
      RRes.err (DecryptionError.Base64Decoding Base64.DecodeError.InvalidLength)
    ∧ decryptOutcomeOk (decrypt_with_key_config serdeU8
        ⟨Base64.encode [0],
         ⟨Base64.encode (List.replicate 12 0), Base64.encode (List.replicate 16 0)⟩⟩ cfgOne) = true
    ∧ decrypt_with_key_config serdeU8
        ⟨Base64.encode [0],
         ⟨Base64.encode [1, 2, 3, 4], Base64.encode (List.replicate 16 0)⟩⟩ cfgOne =
      RRes.panic nonceSliceMsg
    ∧ decrypt_with_key_config serdeU8
        ⟨Base64.encode [0],
         ⟨Base64.encode (List.replicate 12 0), Base64.encode [5, 6]⟩⟩ cfgOne =
      RRes.panic tagSliceMsg :=
  ⟨(C2_malformed_input_amended serdeU8 _ cfgOne).1 Base64.DecodeError.InvalidLength rfl,
   (C2_malformed_input_amended serdeU8 _ cfgOne).2.2.2.1 [0] (List.replicate 12 0)
     (List.replicate 16 0) (by decide) (by decide) (by decide) (by decide) (by decide),
   (C2_malformed_input_amended serdeU8 _ cfgOne).2.2.2.2.1 [0] [1, 2, 3, 4]
     (List.replicate 16 0) keyA32 [] (by decide) (by decide) (by decide) rfl (by decide),
   (C2_malformed_input_amended serdeU8 _ cfgOne).2.2.2.2.2 [0] (List.replicate 12 0)
     [5, 6] keyA32 [] (by decide) (by decide) (by decide) rfl (by decide) (by decide)⟩

/-- C8: every successful encryption yields an envelope whose base64-decoded
ciphertext has exactly the length of the serialized plaintext, whose decoded
nonce is the AES-256-GCM nonce length (12 bytes) and whose decoded tag is 16
bytes. -/
theorem C8_envelope_field_lengths {P : Type} (sd : Serde P) (strat : Strategy)
    (v : P) (bs : List Nat) (cfg : Config) (rng : List Nat) (env : EncryptedMessage)
    (hser : sd.to_vec v = Except.ok bs)
    (hbs : ∀ b ∈ bs, b < 256)
    (hr : 12 ≤ rng.length)
    (hrb : ∀ b ∈ rng, b < 256)
    (henc : encrypt_with_key_config sd strat v cfg rng = RRes.ok env) :
    (Base64.decode env.payload).map List.length = Except.ok bs.length
    ∧ (Base64.decode env.headers.nonce).map List.length = Except.ok 12
    ∧ (Base64.decode env.headers.tag).map List.length = Except.ok 16 := by
  obtain ⟨key, rest, hk⟩ : ∃ key rest, cfg.keys = key :: rest := by
    cases hc : cfg.keys with
    | nil =>
      rw [encrypt_with_key_config, hser, Config.primary_key, hc] at henc
      exact RRes.noConfusion henc
    | cons k r => exact ⟨k, r, rfl⟩
  rw [encrypt_eq_ok sd strat v cfg rng bs key rest hser hk] at henc
  have henv : env = ⟨Base64.encode (encParts strat key.val bs rng).1,
      ⟨Base64.encode (encParts strat key.val bs rng).2.1,
       Base64.encode (encParts strat key.val bs rng).2.2⟩⟩ := (RRes.ok.inj henc).symm
  subst henv
  refine ⟨?_, ?_, ?_⟩
  · show (Base64.decode (Base64.encode (encParts strat key.val bs rng).1)).map
        List.length = Except.ok bs.length
    rw [Base64.decode_encode _ (encParts_ct_lt strat key.val bs rng hbs)]
    simp [Except.map, encParts_ct_length strat key.val bs rng]
  · show (Base64.decode (Base64.encode (encParts strat key.val bs rng).2.1)).map
        List.length = Except.ok 12
    have hlt : ∀ b ∈ (encParts strat key.val bs rng).2.1, b < 256 :=
      generate_nonce_for_lt strat bs key.val rng hrb
    have hlen : (encParts strat key.val bs rng).2.1.length = 12 :=
      generate_nonce_for_length strat bs key.val rng hr
    rw [Base64.decode_encode _ hlt]
    simp [Except.map, hlen]
  · show (Base64.decode (Base64.encode (encParts strat key.val bs rng).2.2)).map
        List.length = Except.ok 16
    rw [Base64.decode_encode _ (encParts_tag_lt strat key.val bs rng)]
    simp [Except.map, encParts_tag_length strat key.val bs rng]

/-- Witness for C8 on the demo envelope of the one-byte payload `42`. -/
theorem C8_envelope_field_lengths_witness :
    (Base64.decode demoEnvR.payload).map List.length = Except.ok 1
    ∧ (Base64.decode demoEnvR.headers.nonce).map List.length = Except.ok 12
    ∧ (Base64.decode demoEnvR.headers.tag).map List.length = Except.ok 16 :=
  C8_envelope_field_lengths serdeU8 Strategy.Deterministic 42 [42] cfgOne demoRng
    demoEnvR rfl (by decide) (by decide) (by decide) (by decide)

/-- C9: the key loop commits to the first key (in configuration order) whose
AEAD open authenticates the envelope: when that key's recovered plaintext
fails to deserialize, decrypt returns the `Deserialization` error at once,
whatever keys follow. -/
theorem C9_first_authenticating_key_commits {P : Type} (sd : Serde P)
    (env : EncryptedMessage) (pre post : List Key32) (k : Key32)
    (payload nonce tag buffer : List Nat) (e : String)
    (hp : Base64.decode env.payload = Except.ok payload)
    (hn : Base64.decode env.headers.nonce = Except.ok nonce)
    (ht : Base64.decode env.headers.tag = Except.ok tag)
    (hnl : nonce.length = 12) (htl : tag.length = 16)
    (hpre : ∀ k2 ∈ pre, AesGcm.decrypt_in_place_detached k2.val nonce payload tag = none)
    (hk : AesGcm.decrypt_in_place_detached k.val nonce payload tag = some buffer)
    (hde : sd.from_slice buffer = Except.error e) :
    decrypt_with_key_config sd env ⟨pre ++ k :: post⟩ =
      RRes.err (DecryptionError.Deserialization e) := by
  simp only [decrypt_with_key_config, hp, hn, ht]
  rw [try_keys_skip sd pre (k :: post) payload nonce tag hnl htl hpre]
  simp only [try_keys, if_pos hnl, if_pos htl, hk, hde]

/-- Witness for C9: a hand-sealed envelope whose first key authenticates but
whose buffer the deserializer rejects; the trailing key is never reached. -/
theorem C9_first_authenticating_key_commits_witness :
    decrypt_with_key_config serdeRejectAll
        ⟨Base64.encode [9],
         ⟨Base64.encode (List.replicate 12 0),
          Base64.encode (AesGcm.auth_tag keyA32.val (List.replicate 12 0) [9])⟩⟩
        ⟨[keyA32, keyB32]⟩ =
      RRes.err (DecryptionError.Deserialization rejectMsg) :=
  C9_first_authenticating_key_commits serdeRejectAll
    ⟨Base64.encode [9],
     ⟨Base64.encode (List.replicate 12 0),
      Base64.encode (AesGcm.auth_tag keyA32.val (List.replicate 12 0) [9])⟩⟩
    [] [keyB32] keyA32 [9] (List.replicate 12 0)
    (AesGcm.auth_tag keyA32.val (List.replicate 12 0) [9])
    (xorBytes [9] (AesGcm.keystream keyA32.val (List.replicate 12 0) 1)) rejectMsg
    (by decide) (by decide) (by decide) (by decide) (by decide)
    (by intro k2 hk2; cases hk2) (by decide) rfl

/-- C5: an envelope produced deterministically under `k1 = [keyA]` still
decrypts under `k2 = [keyB, keyA]`: keys are tried in configuration order
and the first authenticated open is returned.  The hypothesis `hfail` makes
the standard AEAD assumption explicit: `keyB` does not authenticate the
`keyA`-sealed envelope.  From it, a fresh encrypt under `k2` necessarily
differs from the `k1` envelope (otherwise `keyB`'s recomputed tag would
authenticate it); and when every key fails to authenticate, decrypt returns
the single `Decryption` error. -/
theorem C5_key_rotation {P : Type} (sd : Serde P) (v : P) (bs : List Nat)
    (keyA keyB : Key32) (rng : List Nat) (env : EncryptedMessage)
    (hser : sd.to_vec v = Except.ok bs)
    (hde : sd.from_slice bs = Except.ok v)
    (hbs : ∀ b ∈ bs, b < 256)
    (henc : encrypt_with_key_config sd Strategy.Deterministic v ⟨[keyA]⟩ rng =
      RRes.ok env)
    (hfail : AesGcm.decrypt_in_place_detached keyB.val
        (encParts Strategy.Deterministic keyA.val bs rng).2.1
        (encParts Strategy.Deterministic keyA.val bs rng).1
        (encParts Strategy.Deterministic keyA.val bs rng).2.2 = none) :
    decrypt_with_key_config sd env ⟨[keyB, keyA]⟩ = RRes.ok v
    ∧ (∀ rng2, encrypt_with_key_config sd Strategy.Deterministic v ⟨[keyB, keyA]⟩ rng2 ≠
        RRes.ok env)
    ∧ (∀ (cfg : Config) (env2 : EncryptedMessage) (p n t : List Nat),
        Base64.decode env2.payload = Except.ok p →
        Base64.decode env2.headers.nonce = Except.ok n →
        Base64.decode env2.headers.tag = Except.ok t →
        n.length = 12 → t.length = 16 →
        (∀ k ∈ cfg.keys, AesGcm.decrypt_in_place_detached k.val n p t = none) →
        decrypt_with_key_config sd env2 cfg = RRes.err DecryptionError.Decryption) := by
  rw [encrypt_eq_ok sd Strategy.Deterministic v ⟨[keyA]⟩ rng bs keyA [] hser rfl] at henc
  have henv : env = ⟨Base64.encode (encParts Strategy.Deterministic keyA.val bs rng).1,
      ⟨Base64.encode (encParts Strategy.Deterministic keyA.val bs rng).2.1,
       Base64.encode (encParts Strategy.Deterministic keyA.val bs rng).2.2⟩⟩ :=
    (RRes.ok.inj henc).symm
  subst henv
  have hnltA : ∀ b ∈ (encParts Strategy.Deterministic keyA.val bs rng).2.1, b < 256 :=
    fun b hb => hmacSha256_lt _ _ b (List.mem_of_mem_take hb)
  have hnlenA : (encParts Strategy.Deterministic keyA.val bs rng).2.1.length = 12 := by
    have hrw : (encParts Strategy.Deterministic keyA.val bs rng).2.1 =
        (hmacSha256 keyA.val bs).take 12 := rfl
    rw [hrw, List.length_take, hmacSha256_length]
    omega
  have htlenA : (encParts Strategy.Deterministic keyA.val bs rng).2.2.length = 16 :=
    encParts_tag_length _ _ _ _
  have hdp := Base64.decode_encode (encParts Strategy.Deterministic keyA.val bs rng).1
    (encParts_ct_lt Strategy.Deterministic keyA.val bs rng hbs)
  have hdn := Base64.decode_encode (encParts Strategy.Deterministic keyA.val bs rng).2.1
    hnltA
  have hdt := Base64.decode_encode (encParts Strategy.Deterministic keyA.val bs rng).2.2
    (encParts_tag_lt Strategy.Deterministic keyA.val bs rng)
  refine ⟨?_, ?_, ?_⟩
  · simp only [decrypt_with_key_config, hdp, hdn, hdt, try_keys,
      if_pos hnlenA, if_pos htlenA, hfail, encParts_open, hde]
  · intro rng2 hEq
    rw [encrypt_eq_ok sd Strategy.Deterministic v ⟨[keyB, keyA]⟩ rng2 bs keyB [keyA]
      hser rfl] at hEq
    have hstruct := RRes.ok.inj hEq
    have hnltB : ∀ b ∈ (encParts Strategy.Deterministic keyB.val bs rng2).2.1, b < 256 :=
      fun b hb => hmacSha256_lt _ _ b (List.mem_of_mem_take hb)
    have hct : (encParts Strategy.Deterministic keyB.val bs rng2).1 =
        (encParts Strategy.Deterministic keyA.val bs rng).1 :=
      Base64.encode_inj _ _ (encParts_ct_lt Strategy.Deterministic keyB.val bs rng2 hbs)
        (encParts_ct_lt Strategy.Deterministic keyA.val bs rng hbs)
        (congrArg EncryptedMessage.payload hstruct)
    have hn2 : (encParts Strategy.Deterministic keyB.val bs rng2).2.1 =
        (encParts Strategy.Deterministic keyA.val bs rng).2.1 :=
      Base64.encode_inj _ _ hnltB hnltA
        (congrArg (fun e => e.headers.nonce) hstruct)
    have ht2 : (encParts Strategy.Deterministic keyB.val bs rng2).2.2 =
        (encParts Strategy.Deterministic keyA.val bs rng).2.2 :=
      Base64.encode_inj _ _ (encParts_tag_lt Strategy.Deterministic keyB.val bs rng2)
        (encParts_tag_lt Strategy.Deterministic keyA.val bs rng)
        (congrArg (fun e => e.headers.tag) hstruct)
    have htagB : AesGcm.auth_tag keyB.val
        (encParts Strategy.Deterministic keyB.val bs rng2).2.1
        (encParts Strategy.Deterministic keyB.val bs rng2).1 =
        (encParts Strategy.Deterministic keyB.val bs rng2).2.2 := rfl
    rw [hn2, hct, ht2] at htagB
    rw [AesGcm.decrypt_in_place_detached, if_pos htagB] at hfail
    exact Option.noConfusion hfail
  · intro cfg env2 p n t hp2 hn2e ht2e hnl htl hall
    simp only [decrypt_with_key_config, hp2, hn2e, ht2e]
    exact try_keys_all_fail sd cfg.keys p n t hnl htl hall

/-- Witness for C5: the demo envelope sealed under `keyA32` decrypts under
the rotated configuration `[keyB32, keyA32]`. -/
theorem C5_key_rotation_witness :
    decrypt_with_key_config serdeU8 demoEnvR ⟨[keyB32, keyA32]⟩ = RRes.ok 42 :=
  (C5_key_rotation serdeU8 42 [42] keyA32 keyB32 demoRng demoEnvR rfl rfl
    (by decide) (by decide) (by decide)).1
